import Mathlib

/-!
Verification of the SMS appointment-reminder service (`main.py`).

The Python module keeps three global in-memory stores
(`conversation_history`, `customer_appointments`, `mock_calendar`) and
processes Azure Event Grid webhook deliveries.  We embed the stores as
function-valued maps, calendar dates as day numbers (days since
0000-03-01 in the proleptic Gregorian calendar, so that weekday and
civil-date formatting are computable), and the two sources of
randomness (`random.sample` / `random.choice`) as oracle parameters
constrained by the properties the Python library guarantees.
-/

namespace SmsApp

/-! ## Calendar arithmetic

`datetime.date` values are embedded as day numbers (days since
0000-03-01, proleptic Gregorian).  `daysFromCivil`/`civilFromDays` are
the standard civil-calendar conversions restricted to nonnegative
years, where all divisions round down exactly as `Nat` division does. -/

/-- Days since 0000-03-01 of the civil date `y-m-d` (valid for `y ≥ 1`). -/
def daysFromCivil (y m d : Nat) : Nat :=
  let y' := if m ≤ 2 then y - 1 else y
  let era := y' / 400
  let yoe := y' % 400
  let mp := (m + 9) % 12
  let doy := (153 * mp + 2) / 5 + (d - 1)
  let doe := yoe * 365 + yoe / 4 - yoe / 100 + doy
  era * 146097 + doe

/-- Civil date `(y, m, d)` of a day number. -/
def civilFromDays (z : Nat) : Nat × Nat × Nat :=
  let era := z / 146097
  let doe := z % 146097
  let yoe := (doe - doe / 1460 + doe / 36524 - doe / 146096) / 365
  let y := yoe + era * 400
  let doy := doe - (365 * yoe + yoe / 4 - yoe / 100)
  let mp := (5 * doy + 2) / 153
  let d := doy - (153 * mp + 2) / 5 + 1
  let m := if mp < 10 then mp + 3 else mp - 9
  (if m ≤ 2 then y + 1 else y, m, d)

/-- The Python `date.weekday()` convention: Monday = 0 … Sunday = 6.
0000-03-01 was a Wednesday (= 2). -/
def pyWeekday (z : Nat) : Nat := (z + 2) % 7

def weekdayNames : List String :=
  ["Monday", "Tuesday", "Wednesday", "Thursday", "Friday", "Saturday", "Sunday"]

def monthNames : List String :=
  ["January", "February", "March", "April", "May", "June",
   "July", "August", "September", "October", "November", "December"]

/-- Zero-padded two-digit rendering, as `strftime` produces for `%d`,
`%I`, `%M`. -/
def pad2 (n : Nat) : String :=
  if n < 10 then "0" ++ toString n else toString n

/-- `strftime("%A, %B %d")` of a civil date. -/
def formatDateFriendlyCivil (y m d : Nat) : String :=
  (weekdayNames.getD (pyWeekday (daysFromCivil y m d)) "") ++ ", "
    ++ (monthNames.getD (m - 1) "") ++ " " ++ pad2 d

/-- The friendly rendering of a date given as a day number (used where
the pipeline formats an appointment or calendar date). -/
def friendlyDateOfDay (z : Nat) : String :=
  match civilFromDays z with
  | (y, m, d) => formatDateFriendlyCivil y m d

/-- `strftime("%A, %B %d, %Y")` of a day number (the "Current date
context" line of the system prompt). -/
def friendlyDateYearOfDay (z : Nat) : String :=
  match civilFromDays z with
  | (y, m, d) =>
    (weekdayNames.getD (pyWeekday (daysFromCivil y m d)) "") ++ ", "
      ++ (monthNames.getD (m - 1) "") ++ " " ++ pad2 d ++ ", " ++ toString y

def daysInMonth (y m : Nat) : Nat :=
  if m = 2 then (if y % 4 = 0 ∧ (y % 100 ≠ 0 ∨ y % 400 = 0) then 29 else 28)
  else if m = 4 ∨ m = 6 ∨ m = 9 ∨ m = 11 then 30
  else 31

/-- `str.split(sep)` for a one-character separator, over the character
list. -/
def splitOnChar (c : Char) : List Char → List (List Char)
  | [] => [[]]
  | x :: xs =>
    match splitOnChar c xs with
    | [] => if x = c then [[], []] else [[x]]
    | y :: ys => if x = c then [] :: y :: ys else (x :: y) :: ys

/-- Parse a nonempty all-digit field as `strptime` does. -/
def charsToNat? (cs : List Char) : Option Nat :=
  if cs ≠ [] ∧ cs.all Char.isDigit then
    some (cs.foldl (fun a c => 10 * a + (c.toNat - 48)) 0)
  else none

/-- Parse `"YYYY-MM-DD"` as `strptime(date_str, "%Y-%m-%d")` does,
validating ranges; `none` models the `ValueError` raised on malformed
input. -/
def parseYMD (s : String) : Option (Nat × Nat × Nat) :=
  match (splitOnChar '-' s.data).map charsToNat? with
  | [some y, some m, some d] =>
    if 1 ≤ m ∧ m ≤ 12 ∧ 1 ≤ d ∧ d ≤ daysInMonth y m then some (y, m, d) else none
  | _ => none

/-- `format_date_friendly`: convert `"YYYY-MM-DD"` to
`strftime("%A, %B %d")`.  `strptime` raises on malformed input; such
inputs never reach this function in the pipeline and are rendered as
the empty string here. -/
def format_date_friendly (s : String) : String :=
  match parseYMD s with
  | some (y, m, d) => formatDateFriendlyCivil y m d
  | none => ""

/-- Parse `"HH:MM"` as `strptime(time_str, "%H:%M")` does. -/
def parseHM (s : String) : Option (Nat × Nat) :=
  match (splitOnChar ':' s.data).map charsToNat? with
  | [some h, some mi] => if h ≤ 23 ∧ mi ≤ 59 then some (h, mi) else none
  | _ => none

/-- `str.lstrip('0')`: drop every leading `'0'`. -/
def lstripZero (s : String) : String := ⟨s.data.dropWhile (· = '0')⟩

/-- `format_time_friendly`: convert `"HH:MM"` to
`strftime("%I:%M %p").lstrip('0')` (12-hour clock, no leading zero).
Malformed input (a `ValueError` in the source, never reached by the
pipeline) renders as the empty string. -/
def format_time_friendly (s : String) : String :=
  match parseHM s with
  | some (h, mi) =>
    let h12 := if h % 12 = 0 then 12 else h % 12
    lstripZero (pad2 h12 ++ ":" ++ pad2 mi ++ " " ++ (if h < 12 then "AM" else "PM"))
  | none => ""

/-! ## Time slots and the mock calendar -/

def minutesToHHMM (m : Nat) : String := pad2 (m / 60) ++ ":" ++ pad2 (m % 60)

/-- The `while current_time < end_time` loop of `generate_mock_calendar`,
stepping 30 minutes at a time (arguments in minutes since midnight).
The first argument is fuel. -/
def buildSlotsAux : Nat → Nat → Nat → List String
  | 0, _, _ => []
  | f + 1, cur, stop =>
    if cur < stop then minutesToHHMM cur :: buildSlotsAux f (cur + 30) stop else []

/-- Each loop iteration advances `cur` by 30 minutes, so `stop` units
of fuel strictly dominate the iteration count. -/
def buildSlots (cur stop : Nat) : List String := buildSlotsAux stop cur stop

/-- The 16 canonical half-hour slots 09:00 .. 16:30. -/
def time_slots : List String := buildSlots 540 1020

/-- `int(len(time_slots) * 0.8)`: for the 16 slots the float product is
12.800000000000001, truncated to 12, which coincides with exact
rational arithmetic rounded down. -/
def num_to_book : Nat := time_slots.length * 4 / 5

/-- The free slots of one generated day: the canonical slots minus the
randomly booked ones (`[slot for slot in time_slots if slot not in
booked_slots]`). -/
def free_after_booking (booked : Nat → List String) (d : Nat) : List String :=
  time_slots.filter (fun s => decide (s ∉ booked d))

/-- The `for i in range(n)` loop of `generate_mock_calendar`: day
`today + i` is inserted unless it falls on a weekend.  `booked` is the
`random.sample` oracle giving the booked slots of each day. -/
def genDays (today : Nat) (booked : Nat → List String) : Nat → Nat → Option (List String)
  | 0 => fun _ => none
  | n + 1 => fun d =>
    if pyWeekday (today + n) ≥ 5 then genDays today booked n d
    else if d = today + n then some (free_after_booking booked (today + n))
    else genDays today booked n d

/-- `generate_mock_calendar`: 30 consecutive days starting `today`,
weekends skipped, each present day's free set being the canonical slots
minus the sampled booked ones. -/
def generate_mock_calendar (today : Nat) (booked : Nat → List String) :
    Nat → Option (List String) :=
  genDays today booked 30

/-- The guarantees `random.sample(time_slots, num_to_book)` gives for
the booking oracle: distinct slots, drawn from the population, of the
requested size. -/
structure GenValid (booked : Nat → List String) : Prop where
  nodup : ∀ d, (booked d).Nodup
  mem : ∀ d x, x ∈ booked d → x ∈ time_slots
  len : ∀ d, (booked d).length = num_to_book

/-! ## Stores and core operations -/

structure Appointment where
  date : Nat
  time : String
  type : String
  status : String
deriving DecidableEq

structure Turn where
  role : String
  content : String
deriving DecidableEq

structure AppState where
  conversation_history : String → Option (List Turn)
  customer_appointments : String → Option Appointment
  mock_calendar : Nat → Option (List String)

/-- Point update of a function-valued map (dict assignment). -/
def upd {κ α : Type} [DecidableEq κ] (m : κ → Option α) (k : κ) (v : α) :
    κ → Option α :=
  fun q => if q = k then some v else m q

/-- Point removal (Python `del`). -/
def mapDel {κ α : Type} [DecidableEq κ] (m : κ → Option α) (k : κ) :
    κ → Option α :=
  fun q => if q = k then none else m q

/-- The `while tomorrow.weekday() >= 5: tomorrow += timedelta(days=1)`
loop; fuel 7 strictly dominates the at most two iterations it can run. -/
def skipWeekendAux : Nat → Nat → Nat
  | 0, d => d
  | f + 1, d => if pyWeekday d ≥ 5 then skipWeekendAux f (d + 1) else d

def skipWeekend (d : Nat) : Nat := skipWeekendAux 7 d

/-- The fixed pool `time_slots` of `get_customer_appointment` from
which `random.choice` picks the synthesized appointment time. -/
def appointment_pool : List String :=
  ["09:00", "09:30", "10:00", "10:30", "11:00", "11:30",
   "14:00", "14:30", "15:00", "15:30", "16:00", "16:30"]

/-- `get_customer_appointment`: return the stored appointment, or
synthesize one for the next weekday after today at the oracle-chosen
time and store it.  `choose` is the `random.choice` oracle, keyed by
phone number. -/
def get_customer_appointment (today : Nat) (choose : String → String)
    (p : String) (appts : String → Option Appointment) :
    Appointment × (String → Option Appointment) :=
  match appts p with
  | some a => (a, appts)
  | none =>
    let a : Appointment :=
      { date := skipWeekend (today + 1), time := choose p,
        type := "consultation", status := "scheduled" }
    (a, upd appts p a)

/-- `get_available_slots`: sample up to `n` of the free slots of a
date; empty for an unknown date.  `pick` is the `random.sample`
oracle. -/
def get_available_slots (pick : Nat → List String → Nat → List String)
    (cal : Nat → Option (List String)) (d n : Nat) : List String :=
  match cal d with
  | some avail => pick d avail n
  | none => []

/-- `book_appointment`: remove the slot from the date's free list iff
the date is known and the slot is free, and overwrite the stored customer
appointment; otherwise change nothing and report failure. -/
def book_appointment (s : AppState) (p : String) (d : Nat) (t : String) :
    Bool × AppState :=
  match s.mock_calendar d with
  | some slots =>
    if t ∈ slots then
      (true,
       { s with
         mock_calendar := upd s.mock_calendar d (slots.erase t),
         customer_appointments :=
           upd s.customer_appointments p
             { date := d, time := t, type := "consultation", status := "scheduled" } })
    else (false, s)
  | none => (false, s)

inductive DeleteResponse where
  | message (text : String)
  | error (text : String)
deriving DecidableEq

/-- `DELETE /api/conversations/{phone_number}`. -/
def delete_conversation (s : AppState) (p : String) : DeleteResponse × AppState :=
  match s.conversation_history p with
  | some _ =>
    (DeleteResponse.message ("Conversation for " ++ p ++ " deleted"),
     { s with conversation_history := mapDel s.conversation_history p })
  | none => (DeleteResponse.error "No conversation found for this phone number", s)

/-! ## Strings: substring search and case folding (Python `in` / `.lower()`) -/

/-- `sub` occurs as a contiguous run of `s` (Python `sub in s`). -/
def listContainsSub (sub : List Char) : List Char → Bool
  | [] => sub.isEmpty
  | c :: rest => sub.isPrefixOf (c :: rest) || listContainsSub sub rest

def containsSub (s sub : String) : Bool := listContainsSub sub.data s.data

/-- `str.lower()`.  `Char.toLower` folds the ASCII range, which is all
the two trigger substrings can exercise. -/
def toLowerStr (s : String) : String := ⟨s.data.map Char.toLower⟩

/-! ## Prompt texts -/

/-- The system prompt of the first-contact branch (the triple-quoted
f-string), with the friendly date/time of the appointment and the current
date interpolated. -/
def system_prompt (today : Nat) (fd ft : String) : String :=
  "\nYou are a friendly and professional virtual receptionist for a medical practice. "
    ++ "A customer has just texted, and this is their first interaction.\n\n"
    ++ "CUSTOMER\x27S CURRENT APPOINTMENT:\n- Date: " ++ fd ++ "\n- Time: " ++ ft
    ++ "\n- Type: Consultation\n\nYOUR TASKS:\n"
    ++ "1. FIRST: Greet them and remind them of their upcoming consultation appointment (date and time above)\n"
    ++ "2. Ask if they can confirm they\x27ll be able to make it, or if they need to reschedule\n"
    ++ "3. If they want to reschedule:\n   - Ask what date works better for them\n"
    ++ "   - Offer 2-3 available time slots for their preferred date\n"
    ++ "   - Confirm the new appointment once they choose\n"
    ++ "4. If they confirm the existing appointment, thank them and remind them to arrive 15 minutes early\n\n"
    ++ "IMPORTANT GUIDELINES:\n- Be warm, professional, and helpful like a human receptionist\n"
    ++ "- Keep messages concise but friendly\n- Always confirm appointment details clearly\n"
    ++ "- Business hours are 9 AM to 5 PM, Monday through Friday\n"
    ++ "- All appointments are 30-minute consultations\n"
    ++ "- If they ask for a date that\x27s not available or outside business hours, politely suggest alternatives\n\n"
    ++ "Current date context: Today is " ++ friendlyDateYearOfDay today ++ "\n"

/-- The canned first-contact reminder sent instead of a model reply. -/
def initial_message (fd ft : String) : String :=
  "Hi! This is a reminder that you have a consultation scheduled for " ++ fd ++ " at " ++ ft
    ++ ". Can you confirm you\x27ll be able to make it, or would you like to reschedule?"

/-- The two turns stored for a previously-unseen sender: the system
prompt and the canned reminder. -/
def first_contact_history (today : Nat) (fd ft : String) : List Turn :=
  [⟨"system", system_prompt today fd ft⟩, ⟨"assistant", initial_message fd ft⟩]

/-! ## Reschedule look-ahead -/

/-- `"reschedule" in message_content.lower() or "change" in
message_content.lower()`. -/
def reschedule_trigger (m : String) : Bool :=
  containsSub (toLowerStr m) "reschedule" || containsSub (toLowerStr m) "change"

structure DateInfo where
  date : Nat
  friendly_date : String
  slots : List String

/-- The `while len(available_dates) < 5 and days_checked < 14` loop:
`rem` is the number of day checks left, `d` the day under scrutiny. -/
def collectDatesAux (pick : Nat → List String → Nat → List String)
    (cal : Nat → Option (List String)) : Nat → Nat → List DateInfo → List DateInfo
  | 0, _, acc => acc
  | rem + 1, d, acc =>
    if 5 ≤ acc.length then acc
    else
      let acc' :=
        if pyWeekday d < 5 then
          let slots := get_available_slots pick cal d 3
          if slots = [] then acc else acc ++ [⟨d, friendlyDateOfDay d, slots⟩]
        else acc
      collectDatesAux pick cal rem (d + 1) acc'

/-- Up to 5 upcoming weekdays with at least one free slot, scanning
from tomorrow at most 14 calendar days. -/
def collect_available_dates (today : Nat)
    (pick : Nat → List String → Nat → List String)
    (cal : Nat → Option (List String)) : List DateInfo :=
  collectDatesAux pick cal 14 (today + 1) []

def calendar_context_header : String := "\n\nAVAILABLE APPOINTMENTS IN NEXT 2 WEEKS:\n"

/-- The `calendar_context` block appended to the system turn. -/
def calendar_context_of (dates : List DateInfo) : String :=
  calendar_context_header
    ++ String.join (dates.map (fun di =>
        "- " ++ di.friendly_date ++ ": "
          ++ String.intercalate ", " (di.slots.map format_time_friendly) ++ "\n"))

/-- `conversation_history[sender][0]["content"] += calendar_context`:
append to the content of the first turn in place (the list is never empty
when the source reaches this line). -/
def augmentFirst : List Turn → String → List Turn
  | [], _ => []
  | t :: rest, extra => ⟨t.role, t.content ++ extra⟩ :: rest

/-- `calendar_context` as computed for one active-state message. -/
def active_calendar_context (today : Nat)
    (pick : Nat → List String → Nat → List String)
    (cal : Nat → Option (List String)) (m : String) : String :=
  if reschedule_trigger m then calendar_context_of (collect_available_dates today pick cal)
  else ""

/-- The message list after an active-state inbound message: the user
turn is appended, then the system turn is augmented when the computed
calendar context is nonempty. -/
def active_messages (today : Nat)
    (pick : Nat → List String → Nat → List String)
    (cal : Nat → Option (List String)) (hist : List Turn) (m : String) : List Turn :=
  if active_calendar_context today pick cal m = "" then hist ++ [⟨"user", m⟩]
  else augmentFirst (hist ++ [⟨"user", m⟩]) (active_calendar_context today pick cal m)

/-! ## Events and the orchestrator -/

/-- The `data` payload of a webhook event; absent fields are `none`
(`dict.get` misses). -/
structure EventData where
  message : Option String
  from_ : Option String
  validationCode : Option String

structure Event where
  eventType : String
  data : Option EventData

def validationEventType : String := "Microsoft.EventGrid.SubscriptionValidationEvent"

def smsReceivedEventType : String := "Microsoft.Communication.SMSReceived"

/-- An inbound SMS event carrying `message` and `from`. -/
def smsEvent (p m : String) : Event :=
  { eventType := smsReceivedEventType, data := some ⟨some m, some p, none⟩ }

/-- `event.get("data", {}).get("validationCode")`, with Python
falsiness collapsed to the empty string. -/
def eventValidationCode (e : Event) : String :=
  match e.data with
  | some rd => rd.validationCode.getD ""
  | none => ""

/-- The collaborators of one processing run: the current date, the two
randomness oracles, and the chat-completion call (`none` models a
raised provider error).  Client construction is assumed configured; a
missing configuration aborts the turn the same way a failing call
does. -/
structure Ctx where
  today : Nat
  chooseTime : String → String
  pickSlots : Nat → List String → Nat → List String
  complete : List Turn → Option String

/-- What `random.sample(available, min(n, len(available)))` guarantees
about the slot-sampling oracle. -/
structure ValidPick (pick : Nat → List String → Nat → List String) : Prop where
  mem : ∀ d avail n x, x ∈ pick d avail n → x ∈ avail
  len : ∀ d avail n, (pick d avail n).length = min n avail.length

/-- Outcome of processing one event inside the `for` loop: `cont`
moves to the next event, `stop` is the first-contact `return` that
abandons the rest of the batch.  The second component collects the
outbound SMS sends. -/
inductive EvResult where
  | cont (s : AppState) (out : List (String × String))
  | stop (s : AppState) (out : List (String × String))

def EvResult.state : EvResult → AppState
  | .cont s _ => s
  | .stop s _ => s

def EvResult.out : EvResult → List (String × String)
  | .cont _ o => o
  | .stop _ o => o

/-- One iteration of the event loop of `process_sms_event`. -/
def process_one (ctx : Ctx) (s : AppState) (ev : Event) : EvResult :=
  if ev.eventType = validationEventType then .cont s []
  else if ev.eventType = smsReceivedEventType then
    match ev.data with
    | none => .cont s []
    | some rd =>
      let message_content := rd.message.getD ""
      let sender := rd.from_.getD ""
      if message_content = "" ∨ sender = "" then .cont s []
      else
        let res := get_customer_appointment ctx.today ctx.chooseTime sender
          s.customer_appointments
        let appt := res.1
        let s1 : AppState := { s with customer_appointments := res.2 }
        let fd := friendlyDateOfDay appt.date
        let ft := format_time_friendly appt.time
        match s1.conversation_history sender with
        | none =>
          let hist := first_contact_history ctx.today fd ft
          .stop { s1 with conversation_history := upd s1.conversation_history sender hist }
            [(sender, initial_message fd ft)]
        | some hist =>
          let msgs := active_messages ctx.today ctx.pickSlots s1.mock_calendar hist
            message_content
          let s2 : AppState :=
            { s1 with conversation_history := upd s1.conversation_history sender msgs }
          match ctx.complete msgs with
          | none => .cont s2 []
          | some resp =>
            let ai := resp.trim
            let msgs2 := msgs ++ [⟨"assistant", ai⟩]
            .cont { s2 with conversation_history := upd s2.conversation_history sender msgs2 }
              [(sender, ai)]
  else .cont s []

/-- The event loop: a `stop` (the first-contact `return`) abandons the
remaining events of the batch. -/
def processEvents (ctx : Ctx) (s : AppState) : List Event → EvResult
  | [] => .cont s []
  | e :: rest =>
    match process_one ctx s e with
    | .stop s' out => .stop s' out
    | .cont s' out =>
      match processEvents ctx s' rest with
      | .cont s'' out' => .cont s'' (out ++ out')
      | .stop s'' out' => .stop s'' (out ++ out')

/-- `process_sms_event` on a batch: final state and the outbound sends. -/
def process_sms_event (ctx : Ctx) (s : AppState) (evs : List Event) :
    AppState × List (String × String) :=
  ((processEvents ctx s evs).state, (processEvents ctx s evs).out)

/-! ## The webhook handler -/

/-- A delivery is a single event object or an array of events. -/
inductive Payload where
  | single (e : Event)
  | batch (l : List Event)

inductive WebhookResponse where
  | validation (code : String)
  | success (message : String)
  | errorResp (message : String)
deriving DecidableEq

/-- The validation scan of the batch branch: the first
subscription-validation event with a truthy code wins. -/
def findValidationCode : List Event → Option String
  | [] => none
  | e :: rest =>
    if e.eventType = validationEventType ∧ eventValidationCode e ≠ "" then
      some (eventValidationCode e)
    else findValidationCode rest

/-- `receive_sms_webhook` without its side effect: the HTTP response
and, when processing is enqueued, the events handed to
`process_sms_event`.  An empty array slips past the batch branch and
raises `AttributeError` in the single-event code, which the outer
handler converts to an error response. -/
def receive_sms_webhook (p : Payload) : WebhookResponse × Option (List Event) :=
  match p with
  | .batch l =>
    if l.length > 0 then
      match findValidationCode l with
      | some c => (.validation c, none)
      | none =>
        (.success ("Batch of " ++ toString l.length ++ " events received and processing"),
         some l)
    else (.errorResp "list object has no attribute get", none)
  | .single e =>
    if e.eventType = validationEventType ∧ eventValidationCode e ≠ "" then
      (.validation (eventValidationCode e), none)
    else (.success "SMS event received and processing", some [e])

/-- One webhook delivery together with the background processing it
enqueues. -/
def webhook_step (ctx : Ctx) (s : AppState) (p : Payload) :
    WebhookResponse × AppState × List (String × String) :=
  match receive_sms_webhook p with
  | (r, none) => (r, s, [])
  | (r, some evs) =>
    ((r, (process_sms_event ctx s evs).1, (process_sms_event ctx s evs).2))

/-! ## The core operations as one step relation (for the
calendar-shrinking invariant) -/

inductive CoreOp where
  | bookOp (p : String) (d : Nat) (t : String)
  | queryOp (pick : Nat → List String → Nat → List String) (d n : Nat)
  | apptOp (today : Nat) (choose : String → String) (p : String)
  | deleteOp (p : String)
  | eventsOp (ctx : Ctx) (evs : List Event)

/-- The state effect of each core operation (`get_available_slots`
reads the calendar without writing any store; `random.sample` copies). -/
def applyCore : CoreOp → AppState → AppState
  | .bookOp p d t, s => (book_appointment s p d t).2
  | .queryOp _ _ _, s => s
  | .apptOp today choose p, s =>
    { s with customer_appointments :=
        (get_customer_appointment today choose p s.customer_appointments).2 }
  | .deleteOp p, s => (delete_conversation s p).2
  | .eventsOp ctx evs, s => (processEvents ctx s evs).state

/-! ## Per-claim specifications -/

/-- The claim-C2 property of `book_appointment`. -/
def BookAppointmentSpec (s : AppState) (p : String) (d : Nat) (t : String) : Prop :=
  ((book_appointment s p d t).1 = true ↔ ∃ l, s.mock_calendar d = some l ∧ t ∈ l)
  ∧ ((book_appointment s p d t).1 = false → (book_appointment s p d t).2 = s)
  ∧ (∀ l, s.mock_calendar d = some l → t ∈ l →
      (book_appointment s p d t).2.mock_calendar d = some (l.erase t)
      ∧ t ∉ l.erase t)
  ∧ ((book_appointment s p d t).1 = true →
      (book_appointment (book_appointment s p d t).2 p d t).1 = false
      ∧ (book_appointment (book_appointment s p d t).2 p d t).2
          = (book_appointment s p d t).2)

/-- The claim-C9 property of `delete_conversation`. -/
def DeleteConversationSpec (s : AppState) (p : String) : Prop :=
  ((∃ h, s.conversation_history p = some h) →
      (delete_conversation s p).2.conversation_history p = none
      ∧ (∀ q, q ≠ p →
          (delete_conversation s p).2.conversation_history q = s.conversation_history q)
      ∧ (delete_conversation s p).2.customer_appointments = s.customer_appointments
      ∧ (delete_conversation s p).2.mock_calendar = s.mock_calendar)
  ∧ (s.conversation_history p = none →
      delete_conversation s p
        = (DeleteResponse.error "No conversation found for this phone number", s))

/-- C3 (amended): what holds of every generated calendar entry. -/
def GeneratedCalendarSpec (today : Nat) (booked : Nat → List String)
    (d : Nat) (l : List String) : Prop :=
  today ≤ d ∧ d < today + 30 ∧ pyWeekday d < 5
    ∧ l = free_after_booking booked d
    ∧ (∀ x ∈ l, x ∈ time_slots) ∧ time_slots.length = 16
    ∧ l.length = time_slots.length - num_to_book ∧ l.length = 4 ∧ l.Nodup

/-- The friendly date of the appointment `get_customer_appointment`
returns for a sender. -/
def apptFriendlyDate (ctx : Ctx) (s : AppState) (p : String) : String :=
  friendlyDateOfDay
    (get_customer_appointment ctx.today ctx.chooseTime p s.customer_appointments).1.date

/-- The friendly time of the appointment `get_customer_appointment`
returns for a sender. -/
def apptFriendlyTime (ctx : Ctx) (s : AppState) (p : String) : String :=
  format_time_friendly
    (get_customer_appointment ctx.today ctx.chooseTime p s.customer_appointments).1.time

/-- The claim-C1 property of processing a first inbound message. -/
def FirstContactSpec (ctx : Ctx) (s : AppState) (p m m' : String) : Prop :=
  processEvents ctx s [smsEvent p m]
      = .stop
          { s with
            customer_appointments :=
              (get_customer_appointment ctx.today ctx.chooseTime p
                s.customer_appointments).2,
            conversation_history := upd s.conversation_history p
              (first_contact_history ctx.today (apptFriendlyDate ctx s p)
                (apptFriendlyTime ctx s p)) }
          [(p, initial_message (apptFriendlyDate ctx s p) (apptFriendlyTime ctx s p))]
    ∧ (first_contact_history ctx.today (apptFriendlyDate ctx s p)
        (apptFriendlyTime ctx s p)).length = 2
    ∧ ((first_contact_history ctx.today (apptFriendlyDate ctx s p)
        (apptFriendlyTime ctx s p)).map Turn.role) = ["system", "assistant"]
    ∧ (∀ t ∈ first_contact_history ctx.today (apptFriendlyDate ctx s p)
        (apptFriendlyTime ctx s p), t.role ≠ "user")
    ∧ containsSub (initial_message (apptFriendlyDate ctx s p) (apptFriendlyTime ctx s p))
        (apptFriendlyDate ctx s p) = true
    ∧ containsSub (initial_message (apptFriendlyDate ctx s p) (apptFriendlyTime ctx s p))
        (apptFriendlyTime ctx s p) = true
    ∧ processEvents ctx s [smsEvent p m'] = processEvents ctx s [smsEvent p m]

/-- The claim-C4 property of an active-state message: the trigger case and the
no-trigger case. -/
def RescheduleSpec (ctx : Ctx) (s : AppState) (p m : String)
    (t0 : Turn) : Prop :=
  (reschedule_trigger m = true →
      (∃ h', (processEvents ctx s [smsEvent p m]).state.conversation_history p = some h'
        ∧ h'.head? = some ⟨t0.role, t0.content
            ++ calendar_context_of
                (collect_available_dates ctx.today ctx.pickSlots s.mock_calendar)⟩)
      ∧ t0.content.length
          < (t0.content
              ++ calendar_context_of
                  (collect_available_dates ctx.today ctx.pickSlots s.mock_calendar)).length
      ∧ (collect_available_dates ctx.today ctx.pickSlots s.mock_calendar).length ≤ 5
      ∧ (∀ di ∈ collect_available_dates ctx.today ctx.pickSlots s.mock_calendar,
          ctx.today + 1 ≤ di.date ∧ di.date ≤ ctx.today + 14
          ∧ pyWeekday di.date < 5
          ∧ di.slots ≠ [] ∧ di.slots.length ≤ 3
          ∧ (∃ avail, s.mock_calendar di.date = some avail ∧ ∀ x ∈ di.slots, x ∈ avail)))
  ∧ (reschedule_trigger m = false →
      ∃ h', (processEvents ctx s [smsEvent p m]).state.conversation_history p = some h'
        ∧ h'.head? = some t0)

/-- The claim-C6 property of an active-state message whose model call fails. -/
def ModelFailureSpec (ctx : Ctx) (s : AppState) (p m : String)
    (hist : List Turn) : Prop :=
  processEvents ctx s [smsEvent p m]
      = .cont
          { s with
            customer_appointments :=
              (get_customer_appointment ctx.today ctx.chooseTime p
                s.customer_appointments).2,
            conversation_history := upd s.conversation_history p
              (active_messages ctx.today ctx.pickSlots s.mock_calendar hist m) }
          []
    ∧ (active_messages ctx.today ctx.pickSlots s.mock_calendar hist m).length
        = hist.length + 1
    ∧ (active_messages ctx.today ctx.pickSlots s.mock_calendar hist m).getLast?
        = some ⟨"user", m⟩
    ∧ (active_messages ctx.today ctx.pickSlots s.mock_calendar hist m).countP
          (fun t => t.role = "assistant")
        = hist.countP (fun t => t.role = "assistant")

/-- The claim-C5 property of a batch delivery containing a validation event. -/
def ValidationShortCircuitSpec (ctx : Ctx) (s : AppState) (l : List Event) : Prop :=
  ∃ c' e', e' ∈ l ∧ e'.eventType = validationEventType ∧ eventValidationCode e' = c'
    ∧ c' ≠ "" ∧ webhook_step ctx s (.batch l) = (.validation c', s, [])

/-- The claim-C8 property: a batch is cut short at a first-contact event. -/
def BatchHaltSpec (ctx : Ctx) (s : AppState) (pre post : List Event)
    (p m : String) (out1 : List (String × String)) : Prop :=
  processEvents ctx s (pre ++ smsEvent p m :: post)
      = processEvents ctx s (pre ++ [smsEvent p m])
    ∧ ∃ s2 fd ft,
        processEvents ctx s (pre ++ [smsEvent p m])
          = .stop s2 (out1 ++ [(p, initial_message fd ft)])

/-- The claim-C7 property: the free-slot sets only shrink under every core
operation. -/
def CalendarShrinkSpec (op : CoreOp) (s : AppState) : Prop :=
  (∀ d l', (applyCore op s).mock_calendar d = some l' →
      ∃ l, s.mock_calendar d = some l ∧ ∀ x ∈ l', x ∈ l)
  ∧ (∀ pick d n, applyCore (.queryOp pick d n) s = s)
  ∧ (∀ p d t l, s.mock_calendar d = some l → t ∈ l →
      (applyCore (.bookOp p d t) s).mock_calendar d = some (l.erase t)
      ∧ ∀ d', d' ≠ d →
          (applyCore (.bookOp p d t) s).mock_calendar d' = s.mock_calendar d')

/-! ## Concrete fixtures used by the witnesses and the counterexample -/

/-- A deterministic booking oracle: always book the first
`num_to_book` slots. -/
def bk0 : Nat → List String := fun _ => time_slots.take num_to_book

/-- A deterministic instantiation of the randomness/model
collaborators whose model call always fails. -/
def ctx0 : Ctx :=
  { today := 5
    chooseTime := fun _ => "09:00"
    pickSlots := fun _ avail n => avail.take n
    complete := fun _ => none }

/-- A deterministic instantiation whose model call always answers. -/
def ctx1 : Ctx :=
  { ctx0 with complete := fun _ => some " Sure thing. " }

/-- An empty store. -/
def state0 : AppState :=
  { conversation_history := fun _ => none
    customer_appointments := fun _ => none
    mock_calendar := fun _ => none }

/-- A store with one generated calendar and one active session. -/
def state1 : AppState :=
  { conversation_history := fun q =>
      if q = "+14255550100" then
        some [⟨"system", "base prompt"⟩, ⟨"assistant", "hello"⟩]
      else none
    customer_appointments := fun _ => none
    mock_calendar := generate_mock_calendar 5 bk0 }

/-- A store with a tiny explicit calendar. -/
def state2 : AppState :=
  { conversation_history := fun _ => none
    customer_appointments := fun _ => none
    mock_calendar := fun d => if d = 3 then some ["09:00", "09:30"] else none }

/-! # Helper lemmas -/

lemma time_slots_nodup : time_slots.Nodup := by decide

lemma time_slots_length : time_slots.length = 16 := by decide

/-- Closed form of the calendar-generation loop. -/
lemma genDays_eq (today : Nat) (booked : Nat → List String) :
    ∀ n d, genDays today booked n d
      = if today ≤ d ∧ d < today + n ∧ pyWeekday d < 5
        then some (free_after_booking booked d) else none := by
  intro n
  induction n with
  | zero =>
    intro d
    have h : ¬ (today ≤ d ∧ d < today + 0 ∧ pyWeekday d < 5) := by omega
    rw [if_neg h]
    rfl
  | succ n ih =>
    intro d
    simp only [genDays]
    by_cases hc : today ≤ d ∧ d < today + (n + 1) ∧ pyWeekday d < 5
    · rw [if_pos hc]
      by_cases hd : d = today + n
      · subst hd
        have hw : ¬ pyWeekday (today + n) ≥ 5 := by omega
        rw [if_neg hw, if_pos rfl]
      · have hc' : today ≤ d ∧ d < today + n ∧ pyWeekday d < 5 := by omega
        by_cases hw : pyWeekday (today + n) ≥ 5
        · rw [if_pos hw, ih, if_pos hc']
        · rw [if_neg hw, if_neg hd, ih, if_pos hc']
    · rw [if_neg hc]
      by_cases hd : d = today + n
      · subst hd
        have hw : pyWeekday (today + n) ≥ 5 := by omega
        rw [if_pos hw, ih]
        have h2 : ¬ (today ≤ today + n ∧ today + n < today + n
            ∧ pyWeekday (today + n) < 5) := by omega
        rw [if_neg h2]
      · have hc' : ¬ (today ≤ d ∧ d < today + n ∧ pyWeekday d < 5) := by omega
        by_cases hw : pyWeekday (today + n) ≥ 5
        · rw [if_pos hw, ih, if_neg hc']
        · rw [if_neg hw, if_neg hd, ih, if_neg hc']

/-- Removing a duplicate-free sublist by filtering drops exactly its
length. -/
lemma length_filter_not_mem :
    ∀ (ts b : List String), ts.Nodup → b.Nodup → (∀ x ∈ b, x ∈ ts) →
      (ts.filter (fun s => decide (s ∉ b))).length + b.length = ts.length := by
  intro ts
  induction ts with
  | nil =>
    intro b _ _ hsub
    match b with
    | [] => simp
    | x :: b' => exact absurd (hsub x (List.mem_cons_self x b')) (List.not_mem_nil x)
  | cons t ts' ih =>
    intro b hts hb hsub
    have hts' : ts'.Nodup := (List.nodup_cons.mp hts).2
    have htnotmem : t ∉ ts' := (List.nodup_cons.mp hts).1
    by_cases htb : t ∈ b
    · have hbe : (b.erase t).Nodup := hb.erase t
      have hlen : (b.erase t).length = b.length - 1 := List.length_erase_of_mem htb
      have hb1 : 1 ≤ b.length := List.length_pos.mpr (by
        intro h; rw [h] at htb; exact List.not_mem_nil t htb)
      have hsub' : ∀ x ∈ b.erase t, x ∈ ts' := by
        intro x hx
        have hx' := (List.Nodup.mem_erase_iff hb).mp hx
        rcases List.mem_cons.mp (hsub x hx'.2) with h | h
        · exact absurd h hx'.1
        · exact h
      have hcons : (t :: ts').filter (fun s => decide (s ∉ b))
          = ts'.filter (fun s => decide (s ∉ b)) := by
        simp [List.filter_cons, htb]
      have hfeq : ts'.filter (fun s => decide (s ∉ b))
          = ts'.filter (fun s => decide (s ∉ b.erase t)) := by
        apply List.filter_congr
        intro x hx
        have hxt : x ≠ t := fun h => htnotmem (h ▸ hx)
        simp [List.Nodup.mem_erase_iff hb, hxt]
      have hrec := ih (b.erase t) hts' hbe hsub'
      rw [hcons, hfeq, List.length_cons]
      omega
    · have hsub' : ∀ x ∈ b, x ∈ ts' := by
        intro x hx
        rcases List.mem_cons.mp (hsub x hx) with h | h
        · exact absurd (h ▸ hx) htb
        · exact h
      have hcons : (t :: ts').filter (fun s => decide (s ∉ b))
          = t :: ts'.filter (fun s => decide (s ∉ b)) := by
        simp [List.filter_cons, htb]
      have hrec := ih b hts' hb hsub'
      rw [hcons, List.length_cons, List.length_cons]
      omega

lemma sms_ne_validation : smsReceivedEventType ≠ validationEventType := by decide

lemma str_append_assoc (a b c : String) : (a ++ b) ++ c = a ++ (b ++ c) := by
  cases a with | mk da =>
  cases b with | mk db =>
  cases c with | mk dc =>
  show String.mk ((da ++ db) ++ dc) = String.mk (da ++ (db ++ dc))
  rw [List.append_assoc]

lemma str_length_append (a b : String) : (a ++ b).length = a.length + b.length := by
  cases a with | mk da =>
  cases b with | mk db =>
  show ((da ++ db).length) = da.length + db.length
  rw [List.length_append]

lemma listContainsSub_nil_sub : ∀ l : List Char, listContainsSub [] l = true
  | [] => rfl
  | _ :: _ => by simp [listContainsSub, List.isPrefixOf]

lemma isPrefixOf_append_self : ∀ b c : List Char, b.isPrefixOf (b ++ c) = true
  | [], [] => rfl
  | [], _ :: _ => rfl
  | x :: xs, c => by
    show (x == x && xs.isPrefixOf (xs ++ c)) = true
    rw [beq_self_eq_true, Bool.true_and]
    exact isPrefixOf_append_self xs c

lemma listContainsSub_append : ∀ a b c : List Char,
    listContainsSub b (a ++ b ++ c) = true
  | [], b, c => by
    cases b with
    | nil => exact listContainsSub_nil_sub c
    | cons x xs =>
      show listContainsSub (x :: xs) ((x :: xs) ++ c) = true
      simp [listContainsSub, isPrefixOf_append_self]
  | y :: ys, b, c => by
    show listContainsSub b ((y :: (ys ++ b ++ c))) = true
    cases hb : b with
    | nil => exact listContainsSub_nil_sub _
    | cons x xs =>
      simp only [listContainsSub, Bool.or_eq_true]
      right
      rw [← hb]
      exact listContainsSub_append ys b c

/-- A chunk of a concatenation is always found by the substring scan. -/
lemma containsSub_append (a b c : String) : containsSub (a ++ b ++ c) b = true := by
  cases a with | mk da =>
  cases b with | mk db =>
  cases c with | mk dc =>
  show listContainsSub db ((da ++ db) ++ dc) = true
  rw [List.append_assoc, ← List.append_assoc]
  exact listContainsSub_append da db dc

/-- The reminder text carries the friendly date of the appointment and
friendly time. -/
lemma initial_message_contains (fd ft : String) :
    containsSub (initial_message fd ft) fd = true
    ∧ containsSub (initial_message fd ft) ft = true := by
  unfold initial_message
  constructor
  · rw [str_append_assoc, str_append_assoc]
    exact containsSub_append _ _ _
  · exact containsSub_append _ _ _

lemma augmentFirst_cons_append (t0 : Turn) (rest tail : List Turn) (e : String) :
    augmentFirst ((t0 :: rest) ++ tail) e = (⟨t0.role, t0.content ++ e⟩ :: rest) ++ tail := rfl

/-- The calendar-context block is never the empty string (it always
starts with its header). -/
lemma calendar_context_of_ne_empty (dates : List DateInfo) :
    calendar_context_of dates ≠ "" := by
  intro h
  have hlen := congrArg String.length h
  rw [calendar_context_of, str_length_append] at hlen
  have hhead : calendar_context_header.length = 42 := by decide
  simp [hhead] at hlen

lemma calendar_context_of_length_pos (dates : List DateInfo) :
    0 < (calendar_context_of dates).length := by
  rw [calendar_context_of, str_length_append]
  have hhead : calendar_context_header.length = 42 := by decide
  omega

/-- On a triggering message the stored message list is the augmented
history followed by the user turn. -/
lemma active_messages_trigger (today : Nat)
    (pick : Nat → List String → Nat → List String)
    (cal : Nat → Option (List String)) (t0 : Turn) (rest : List Turn) (m : String)
    (htr : reschedule_trigger m = true) :
    active_messages today pick cal (t0 :: rest) m
      = (⟨t0.role, t0.content ++ calendar_context_of (collect_available_dates today pick cal)⟩
          :: rest) ++ [⟨"user", m⟩] := by
  unfold active_messages active_calendar_context
  rw [htr, if_pos rfl,
    if_neg (calendar_context_of_ne_empty (collect_available_dates today pick cal)),
    augmentFirst_cons_append]

/-- On a non-triggering message the history is only extended by the
user turn. -/
lemma active_messages_no_trigger (today : Nat)
    (pick : Nat → List String → Nat → List String)
    (cal : Nat → Option (List String)) (hist : List Turn) (m : String)
    (htr : reschedule_trigger m = false) :
    active_messages today pick cal hist m = hist ++ [⟨"user", m⟩] := by
  unfold active_messages active_calendar_context
  rw [htr]
  simp

lemma active_messages_length (today : Nat)
    (pick : Nat → List String → Nat → List String)
    (cal : Nat → Option (List String)) (t0 : Turn) (rest : List Turn) (m : String) :
    (active_messages today pick cal (t0 :: rest) m).length = (t0 :: rest).length + 1 := by
  cases htr : reschedule_trigger m with
  | true =>
    rw [active_messages_trigger today pick cal t0 rest m htr]
    simp
  | false =>
    rw [active_messages_no_trigger today pick cal (t0 :: rest) m htr]
    simp

lemma active_messages_getLast (today : Nat)
    (pick : Nat → List String → Nat → List String)
    (cal : Nat → Option (List String)) (t0 : Turn) (rest : List Turn) (m : String) :
    (active_messages today pick cal (t0 :: rest) m).getLast? = some ⟨"user", m⟩ := by
  cases htr : reschedule_trigger m with
  | true =>
    rw [active_messages_trigger today pick cal t0 rest m htr]
    exact List.getLast?_concat _
  | false =>
    rw [active_messages_no_trigger today pick cal (t0 :: rest) m htr]
    exact List.getLast?_concat _

lemma active_messages_countP (today : Nat)
    (pick : Nat → List String → Nat → List String)
    (cal : Nat → Option (List String)) (t0 : Turn) (rest : List Turn) (m : String) :
    (active_messages today pick cal (t0 :: rest) m).countP
        (fun t => t.role = "assistant")
      = (t0 :: rest).countP (fun t => t.role = "assistant") := by
  cases htr : reschedule_trigger m with
  | true =>
    rw [active_messages_trigger today pick cal t0 rest m htr]
    simp [List.countP_append, List.countP_cons]
  | false =>
    rw [active_messages_no_trigger today pick cal (t0 :: rest) m htr]
    simp [List.countP_append, List.countP_cons]

/-- Processing a first-contact inbound SMS: the canned reminder is
stored and sent and the loop returns. -/
lemma process_one_first_contact (ctx : Ctx) (s : AppState) (p m : String)
    (hm : m ≠ "") (hp : p ≠ "") (hnew : s.conversation_history p = none) :
    process_one ctx s (smsEvent p m)
      = .stop
          { s with
            customer_appointments :=
              (get_customer_appointment ctx.today ctx.chooseTime p
                s.customer_appointments).2,
            conversation_history := upd s.conversation_history p
              (first_contact_history ctx.today (apptFriendlyDate ctx s p)
                (apptFriendlyTime ctx s p)) }
          [(p, initial_message (apptFriendlyDate ctx s p) (apptFriendlyTime ctx s p))] := by
  unfold process_one
  rw [if_neg (show ¬ ((smsEvent p m).eventType = validationEventType) from
    sms_ne_validation)]
  rw [if_pos (show (smsEvent p m).eventType = smsReceivedEventType from rfl)]
  show (if m = "" ∨ p = "" then EvResult.cont s [] else _) = _
  rw [if_neg (by simp [hm, hp])]
  show (match s.conversation_history p with
    | none => _
    | some hist => _) = _
  rw [hnew]
  rfl

/-- Processing an active-state inbound SMS whose model call fails: the
user turn (and any calendar augmentation) is stored, nothing is sent. -/
lemma process_one_active_fail (ctx : Ctx) (s : AppState) (p m : String)
    (hist : List Turn) (hm : m ≠ "") (hp : p ≠ "")
    (hh : s.conversation_history p = some hist)
    (hcomp : ctx.complete
      (active_messages ctx.today ctx.pickSlots s.mock_calendar hist m) = none) :
    process_one ctx s (smsEvent p m)
      = .cont
          { s with
            customer_appointments :=
              (get_customer_appointment ctx.today ctx.chooseTime p
                s.customer_appointments).2,
            conversation_history := upd s.conversation_history p
              (active_messages ctx.today ctx.pickSlots s.mock_calendar hist m) }
          [] := by
  unfold process_one
  rw [if_neg (show ¬ ((smsEvent p m).eventType = validationEventType) from
    sms_ne_validation)]
  rw [if_pos (show (smsEvent p m).eventType = smsReceivedEventType from rfl)]
  show (if m = "" ∨ p = "" then EvResult.cont s [] else _) = _
  rw [if_neg (by simp [hm, hp])]
  show (match s.conversation_history p with
    | none => _
    | some hist => _) = _
  rw [hh]
  show (match ctx.complete
      (active_messages ctx.today ctx.pickSlots s.mock_calendar hist m) with
    | none => _
    | some resp => _) = _
  rw [hcomp]
  rfl

/-- Processing an active-state inbound SMS whose model call answers:
the trimmed reply is appended and sent. -/
lemma process_one_active_ok (ctx : Ctx) (s : AppState) (p m : String)
    (hist : List Turn) (resp : String) (hm : m ≠ "") (hp : p ≠ "")
    (hh : s.conversation_history p = some hist)
    (hcomp : ctx.complete
      (active_messages ctx.today ctx.pickSlots s.mock_calendar hist m) = some resp) :
    process_one ctx s (smsEvent p m)
      = .cont
          { s with
            customer_appointments :=
              (get_customer_appointment ctx.today ctx.chooseTime p
                s.customer_appointments).2,
            conversation_history :=
              upd (upd s.conversation_history p
                  (active_messages ctx.today ctx.pickSlots s.mock_calendar hist m)) p
                (active_messages ctx.today ctx.pickSlots s.mock_calendar hist m
                  ++ [⟨"assistant", resp.trim⟩]) }
          [(p, resp.trim)] := by
  unfold process_one
  rw [if_neg (show ¬ ((smsEvent p m).eventType = validationEventType) from
    sms_ne_validation)]
  rw [if_pos (show (smsEvent p m).eventType = smsReceivedEventType from rfl)]
  show (if m = "" ∨ p = "" then EvResult.cont s [] else _) = _
  rw [if_neg (by simp [hm, hp])]
  show (match s.conversation_history p with
    | none => _
    | some hist => _) = _
  rw [hh]
  show (match ctx.complete
      (active_messages ctx.today ctx.pickSlots s.mock_calendar hist m) with
    | none => _
    | some resp => _) = _
  rw [hcomp]
  rfl

/-- The look-ahead loop collects at most 5 dates. -/
lemma collectDatesAux_length (pick : Nat → List String → Nat → List String)
    (cal : Nat → Option (List String)) :
    ∀ rem d acc, acc.length ≤ 5 → (collectDatesAux pick cal rem d acc).length ≤ 5 := by
  intro rem
  induction rem with
  | zero => intro d acc h; exact h
  | succ n ih =>
    intro d acc h
    simp only [collectDatesAux]
    by_cases h5 : 5 ≤ acc.length
    · rw [if_pos h5]; exact h
    · rw [if_neg h5]
      apply ih
      by_cases hw : pyWeekday d < 5
      · rw [if_pos hw]
        by_cases hsl : get_available_slots pick cal d 3 = []
        · rw [if_pos hsl]; exact h
        · rw [if_neg hsl, List.length_append]
          simp only [List.length_singleton]
          omega
      · rw [if_neg hw]; exact h

/-- Every date the look-ahead loop adds lies in the scanned window, is
a weekday, and carries 1–3 slots sampled from that date's free list. -/
lemma collectDatesAux_mem (pick : Nat → List String → Nat → List String)
    (cal : Nat → Option (List String)) (hv : ValidPick pick) :
    ∀ rem d acc di, di ∈ collectDatesAux pick cal rem d acc →
      di ∈ acc
      ∨ (d ≤ di.date ∧ di.date < d + rem ∧ pyWeekday di.date < 5
          ∧ di.slots ≠ [] ∧ di.slots.length ≤ 3
          ∧ (∃ avail, cal di.date = some avail ∧ ∀ x ∈ di.slots, x ∈ avail)
          ∧ di.friendly_date = friendlyDateOfDay di.date) := by
  intro rem
  induction rem with
  | zero => intro d acc di h; exact Or.inl h
  | succ n ih =>
    intro d acc di h
    simp only [collectDatesAux] at h
    by_cases h5 : 5 ≤ acc.length
    · rw [if_pos h5] at h; exact Or.inl h
    · rw [if_neg h5] at h
      rcases ih (d + 1) _ di h with hacc | hprops
      · by_cases hw : pyWeekday d < 5
        · rw [if_pos hw] at hacc
          by_cases hsl : get_available_slots pick cal d 3 = []
          · rw [if_pos hsl] at hacc; exact Or.inl hacc
          · rw [if_neg hsl] at hacc
            rcases List.mem_append.mp hacc with h1 | h2
            · exact Or.inl h1
            · have hdi : di = ⟨d, friendlyDateOfDay d, get_available_slots pick cal d 3⟩ := by
                simpa using h2
              right
              subst hdi
              refine ⟨Nat.le_refl d, by show d < d + (n + 1); omega, hw, hsl, ?_, ?_, rfl⟩
              · cases hcd : cal d with
                | none =>
                  exact absurd (show get_available_slots pick cal d 3 = [] from by
                    unfold get_available_slots; rw [hcd]) hsl
                | some avail =>
                  have heq : get_available_slots pick cal d 3 = pick d avail 3 := by
                    unfold get_available_slots; rw [hcd]
                  show (get_available_slots pick cal d 3).length ≤ 3
                  rw [heq, hv.len]
                  omega
              · cases hcd : cal d with
                | none =>
                  exact absurd (show get_available_slots pick cal d 3 = [] from by
                    unfold get_available_slots; rw [hcd]) hsl
                | some avail =>
                  have heq : get_available_slots pick cal d 3 = pick d avail 3 := by
                    unfold get_available_slots; rw [hcd]
                  refine ⟨avail, rfl, ?_⟩
                  intro x hx
                  rw [heq] at hx
                  exact hv.mem d avail 3 x hx
        · rw [if_neg hw] at hacc; exact Or.inl hacc
      · right
        obtain ⟨ha1, ha2, hrest⟩ := hprops
        exact ⟨by omega, by omega, hrest⟩

/-- A continuing prefix threads its state and collected sends into the
processing of the suffix. -/
lemma processEvents_append_cont (ctx : Ctx) :
    ∀ (xs ys : List Event) (s s' : AppState) (o : List (String × String)),
      processEvents ctx s xs = .cont s' o →
      processEvents ctx s (xs ++ ys)
        = match processEvents ctx s' ys with
          | .cont s'' o' => .cont s'' (o ++ o')
          | .stop s'' o' => .stop s'' (o ++ o') := by
  intro xs
  induction xs with
  | nil =>
    intro ys s s' o h
    simp only [processEvents] at h
    injection h with h1 h2
    subst h1
    subst h2
    rw [List.nil_append]
    cases hy : processEvents ctx s ys with
    | cont s'' o' => simp
    | stop s'' o' => simp
  | cons e xs ih =>
    intro ys s s' o h
    simp only [processEvents] at h
    rw [List.cons_append]
    show (match process_one ctx s e with
      | .stop s1 o1 => EvResult.stop s1 o1
      | .cont s1 o1 =>
        match processEvents ctx s1 (xs ++ ys) with
        | .cont s'' o' => EvResult.cont s'' (o1 ++ o')
        | .stop s'' o' => EvResult.stop s'' (o1 ++ o')) = _
    cases h1 : process_one ctx s e with
    | stop s1 o1 =>
      rw [h1] at h
      have h' : EvResult.stop s1 o1 = EvResult.cont s' o := h
      exact absurd h' (by simp)
    | cont s1 o1 =>
      rw [h1] at h
      have h' : (match processEvents ctx s1 xs with
          | EvResult.cont s'' o' => EvResult.cont s'' (o1 ++ o')
          | EvResult.stop s'' o' => EvResult.stop s'' (o1 ++ o')) = EvResult.cont s' o := h
      show (match processEvents ctx s1 (xs ++ ys) with
        | EvResult.cont s'' o' => EvResult.cont s'' (o1 ++ o')
        | EvResult.stop s'' o' => EvResult.stop s'' (o1 ++ o')) = _
      cases h2 : processEvents ctx s1 xs with
      | stop s2 o2 =>
        rw [h2] at h'
        have h'' : EvResult.stop s2 (o1 ++ o2) = EvResult.cont s' o := h'
        exact absurd h'' (by simp)
      | cont s2 o2 =>
        rw [h2] at h'
        have h'' : EvResult.cont s2 (o1 ++ o2) = EvResult.cont s' o := h'
        have hs : s2 = s' := by injection h''
        have ho : o1 ++ o2 = o := by injection h''
        subst hs
        subst ho
        rw [ih ys s1 s2 o2 h2]
        cases h3 : processEvents ctx s2 ys with
        | cont s3 o3 => simp [List.append_assoc]
        | stop s3 o3 => simp [List.append_assoc]

/-- One loop iteration never writes the calendar. -/
lemma process_one_mock_calendar (ctx : Ctx) (s : AppState) (e : Event) :
    (process_one ctx s e).state.mock_calendar = s.mock_calendar := by
  simp only [process_one]
  repeat' split
  all_goals rfl

/-- Event processing never writes the calendar. -/
lemma processEvents_mock_calendar (ctx : Ctx) :
    ∀ (evs : List Event) (s : AppState),
      (processEvents ctx s evs).state.mock_calendar = s.mock_calendar := by
  intro evs
  induction evs with
  | nil => intro s; rfl
  | cons e rest ih =>
    intro s
    have h0 := process_one_mock_calendar ctx s e
    simp only [processEvents]
    cases h1 : process_one ctx s e with
    | stop s' out =>
      rw [h1] at h0
      exact h0
    | cont s' out =>
      rw [h1] at h0
      have h2 := ih s'
      show (match processEvents ctx s' rest with
        | EvResult.cont s'' out' => EvResult.cont s'' (out ++ out')
        | EvResult.stop s'' out' =>
          EvResult.stop s'' (out ++ out')).state.mock_calendar = s.mock_calendar
      cases h3 : processEvents ctx s' rest with
      | cont s'' out' =>
        rw [h3] at h2
        exact h2.trans h0
      | stop s'' out' =>
        rw [h3] at h2
        exact h2.trans h0

/-- The validation scan finds a code whenever the array holds a
validation event with a truthy code. -/
lemma findValidationCode_of_mem :
    ∀ l : List Event,
      (∃ e ∈ l, e.eventType = validationEventType ∧ eventValidationCode e ≠ "") →
      ∃ c', findValidationCode l = some c'
        ∧ ∃ e' ∈ l, e'.eventType = validationEventType
            ∧ eventValidationCode e' = c' ∧ c' ≠ "" := by
  intro l
  induction l with
  | nil =>
    rintro ⟨e, he, _⟩
    exact absurd he (List.not_mem_nil e)
  | cons a rest ih =>
    rintro ⟨e, he, het, hec⟩
    by_cases ha : a.eventType = validationEventType ∧ eventValidationCode a ≠ ""
    · refine ⟨eventValidationCode a, ?_, a, List.mem_cons_self a rest, ha.1, rfl, ha.2⟩
      simp only [findValidationCode]
      rw [if_pos ha]
    · have he' : e ∈ rest := by
        rcases List.mem_cons.mp he with h | h
        · subst h; exact absurd ⟨het, hec⟩ ha
        · exact h
      obtain ⟨c', hf, e', he'', hrest⟩ := ih ⟨e, he', het, hec⟩
      refine ⟨c', ?_, e', List.mem_cons_of_mem a he'', hrest⟩
      simp only [findValidationCode]
      rw [if_neg ha]
      exact hf

/-! # Claim theorems -/

/-- C10: `format_time_friendly` performs the 12-hour conversion with
no leading zero, and `format_date_friendly` renders a `YYYY-MM-DD`
string as its weekday, month and day; both are plain functions, so the
same input always yields the same output. -/
theorem friendly_formatting_correct :
    format_time_friendly "09:00" = "9:00 AM"
    ∧ format_time_friendly "14:30" = "2:30 PM"
    ∧ format_date_friendly "2026-10-05" = "Monday, October 05"
    ∧ format_date_friendly "2026-10-12" = "Monday, October 12" := by
  refine ⟨?_, ?_, ?_, ?_⟩ <;> decide

/-- Booking an unknown date fails without mutation. -/
lemma book_appointment_none (u : AppState) (p : String) (d : Nat) (t : String)
    (hm : u.mock_calendar d = none) : book_appointment u p d t = (false, u) := by
  unfold book_appointment
  rw [hm]

/-- Booking a known date whose free list misses the slot fails without
mutation. -/
lemma book_appointment_miss (u : AppState) (p : String) (d : Nat) (t : String)
    (m : List String) (hm : u.mock_calendar d = some m) (hnm : t ∉ m) :
    book_appointment u p d t = (false, u) := by
  unfold book_appointment
  rw [hm]
  simp only [if_neg hnm]

/-- Booking a free slot removes it and overwrites the appointment. -/
lemma book_appointment_hit (u : AppState) (p : String) (d : Nat) (t : String)
    (m : List String) (hm : u.mock_calendar d = some m) (htm : t ∈ m) :
    book_appointment u p d t
      = (true,
         { u with
           mock_calendar := upd u.mock_calendar d (m.erase t),
           customer_appointments :=
             upd u.customer_appointments p
               { date := d, time := t, type := "consultation",
                 status := "scheduled" } }) := by
  unfold book_appointment
  rw [hm]
  simp only [if_pos htm]

/-- C2: booking succeeds and removes the slot iff the slot is free on
a known date; every failure (unknown date, slot not free, second
booking of the same pair) returns `false` and leaves the state
untouched. -/
theorem book_appointment_correct (s : AppState) (p : String) (d : Nat) (t : String)
    (hnd : ∀ l, s.mock_calendar d = some l → l.Nodup) :
    BookAppointmentSpec s p d t := by
  unfold BookAppointmentSpec
  rcases hcal : s.mock_calendar d with _ | l
  · have hbook := book_appointment_none s p d t hcal
    refine ⟨?_, ?_, ?_, ?_⟩
    · rw [hbook]
      constructor
      · intro h; exact absurd h (by simp)
      · rintro ⟨l', hl', _⟩
        exact absurd hl' (by simp)
    · intro _; rw [hbook]
    · intro l' hl'
      exact absurd hl' (by simp)
    · intro hb
      rw [hbook] at hb
      exact absurd hb (by simp)
  · by_cases ht : t ∈ l
    · have hnodup : l.Nodup := hnd l hcal
      have hne : t ∉ l.erase t := by
        intro h
        exact absurd ((List.Nodup.mem_erase_iff hnodup).mp h).1 (by simp)
      have hbook := book_appointment_hit s p d t l hcal ht
      have hcal' : (book_appointment s p d t).2.mock_calendar d
          = some (l.erase t) := by
        rw [hbook]
        simp [upd]
      refine ⟨?_, ?_, ?_, ?_⟩
      · exact ⟨fun _ => ⟨l, rfl, ht⟩, fun _ => by rw [hbook]⟩
      · intro hb
        rw [hbook] at hb
        exact absurd hb (by simp)
      · intro l' hl' _
        have hll : l = l' := Option.some.inj hl'
        subst hll
        exact ⟨hcal', hne⟩
      · intro _
        rw [book_appointment_miss _ p d t _ hcal' hne]
        exact ⟨rfl, rfl⟩
    · have hbook := book_appointment_miss s p d t l hcal ht
      refine ⟨?_, ?_, ?_, ?_⟩
      · rw [hbook]
        constructor
        · intro h; exact absurd h (by simp)
        · rintro ⟨l', hl', ht'⟩
          exact absurd (Option.some.inj hl' ▸ ht') ht
      · intro _; rw [hbook]
      · intro l' hl' ht'
        exact absurd (Option.some.inj hl' ▸ ht') ht
      · intro hb
        rw [hbook] at hb
        exact absurd hb (by simp)

/-- Witness for C2: on a known date with free slots `["09:00","09:30"]`,
book `09:00`. -/
theorem book_appointment_witness : BookAppointmentSpec state2 "+14255550100" 3 "09:00" :=
  book_appointment_correct state2 "+14255550100" 3 "09:00" (by
    intro l h
    simp only [state2, if_pos rfl] at h
    injection h with h
    rw [← h]
    decide)

/-- C9: deleting an existing session removes exactly that session and
nothing else; deleting a missing one answers a structured error and
changes nothing. -/
theorem delete_conversation_correct (s : AppState) (p : String) :
    DeleteConversationSpec s p := by
  unfold DeleteConversationSpec
  constructor
  · rintro ⟨h, hh⟩
    refine ⟨?_, ?_, ?_, ?_⟩
    · simp [delete_conversation, hh, mapDel]
    · intro q hq; simp [delete_conversation, hh, mapDel, hq]
    · simp [delete_conversation, hh]
    · simp [delete_conversation, hh]
  · intro hh
    simp [delete_conversation, hh]

/-- Witness for C9: delete the one session of `state1`, and delete a
missing session from `state0`. -/
theorem delete_conversation_witness :
    DeleteConversationSpec state1 "+14255550100" ∧ DeleteConversationSpec state0 "+1" :=
  ⟨delete_conversation_correct state1 "+14255550100",
   delete_conversation_correct state0 "+1"⟩

/-- C3 as stated is false: the generator books `int(16 * 0.8) = 12`
slots, so every generated date has exactly 4 free slots, which is 25%
of 16, not at most 20% (`4 * 5 > 16`). -/
theorem calendar_density_counterexample :
    ∃ l, generate_mock_calendar 5 bk0 5 = some l
      ∧ l.length = 4 ∧ ¬ (l.length * 5 ≤ 16) := by
  refine ⟨["15:00", "15:30", "16:00", "16:30"], by decide, by decide, by decide⟩

/-- C3 (amended): every generated key date is a weekday within
`today .. today+29`, its free list is the canonical 16 slots minus the
sampled booked ones, hence a duplicate-free subset of the canonical
slots of size exactly `16 - int(16*0.8) = 4` (25% free, not ≤ 20%). -/
theorem generate_mock_calendar_correct (today : Nat) (booked : Nat → List String)
    (hb : GenValid booked) (d : Nat) (l : List String)
    (h : generate_mock_calendar today booked d = some l) :
    GeneratedCalendarSpec today booked d l := by
  unfold generate_mock_calendar at h
  rw [genDays_eq] at h
  by_cases hc : today ≤ d ∧ d < today + 30 ∧ pyWeekday d < 5
  case neg => rw [if_neg hc] at h; exact absurd h (by simp)
  rw [if_pos hc] at h
  injection h with h
  obtain ⟨h1, h2, h3⟩ := hc
  have hmem : ∀ x ∈ l, x ∈ time_slots := by
    intro x hx
    rw [← h] at hx
    exact (List.mem_filter.mp hx).1
  have hcount := length_filter_not_mem time_slots (booked d) time_slots_nodup
    (hb.nodup d) (hb.mem d)
  have hlenb := hb.len d
  have hlen : l.length = time_slots.length - num_to_book := by
    rw [← h]
    unfold free_after_booking
    omega
  refine ⟨h1, h2, h3, h.symm, hmem, time_slots_length, hlen, ?_, ?_⟩
  · rw [hlen]; decide
  · rw [← h]
    exact List.Nodup.filter _ time_slots_nodup

/-- The deterministic booking oracle satisfies the `random.sample`
contract. -/
lemma bk0_valid : GenValid bk0 := by
  refine ⟨?_, ?_, ?_⟩
  · intro d
    show (time_slots.take num_to_book).Nodup
    decide
  · intro d x hx
    exact List.take_subset _ _ hx
  · intro d
    show (time_slots.take num_to_book).length = num_to_book
    decide

/-- Witness for C3 (amended): the deterministic booking oracle `bk0`
is a valid sample, and the generated entry for day 5 satisfies the
amended property. -/
theorem generate_mock_calendar_witness :
    GeneratedCalendarSpec 5 bk0 5 ["15:00", "15:30", "16:00", "16:30"] :=
  generate_mock_calendar_correct 5 bk0 bk0_valid
    5 ["15:00", "15:30", "16:00", "16:30"] (by decide)

/-- C1: the first inbound message from an unseen phone number stores
exactly the system turn and the canned reminder (no user turn), sends
exactly that reminder (which carries the friendly date and time of the
synthesized appointment), and the whole outcome is independent of the
message text. -/
theorem first_contact_correct (ctx : Ctx) (s : AppState) (p m m' : String)
    (hm : m ≠ "") (hm' : m' ≠ "") (hp : p ≠ "")
    (hnew : s.conversation_history p = none) :
    FirstContactSpec ctx s p m m' := by
  have hfc := process_one_first_contact ctx s p m hm hp hnew
  have hfc' := process_one_first_contact ctx s p m' hm' hp hnew
  unfold FirstContactSpec
  refine ⟨?_, rfl, rfl, ?_, (initial_message_contains _ _).1,
    (initial_message_contains _ _).2, ?_⟩
  · simp only [processEvents, hfc]
  · intro t ht
    simp only [first_contact_history, List.mem_cons, List.not_mem_nil,
      or_false] at ht
    rcases ht with h | h
    · subst h
      show ("system" : String) ≠ "user"
      decide
    · subst h
      show ("assistant" : String) ≠ "user"
      decide
  · simp only [processEvents, hfc, hfc']

/-- Witness for C1: a fresh sender texting an empty store. -/
theorem first_contact_witness : FirstContactSpec ctx1 state0 "+14255550123" "hello" "hey" :=
  first_contact_correct ctx1 state0 "+14255550123" "hello" "hey"
    (by decide) (by decide) (by decide) rfl

/-- The deterministic slot-sampling oracle satisfies the
`random.sample` contract. -/
lemma ctx0_validPick : ValidPick ctx0.pickSlots := by
  constructor
  · intro d avail n x hx
    exact List.take_subset _ _ hx
  · intro d avail n
    exact List.length_take n avail

/-- C4: a message containing "reschedule" or "change" (any case)
strictly grows the system turn by the availability block built from at
most 5 weekdays within the next 14 days, each carrying 1–3 slots drawn
from that date's free list; other messages leave the system turn
unchanged. -/
theorem reschedule_trigger_correct (ctx : Ctx) (s : AppState) (p m : String)
    (t0 : Turn) (rest : List Turn)
    (hv : ValidPick ctx.pickSlots) (hm : m ≠ "") (hp : p ≠ "")
    (hh : s.conversation_history p = some (t0 :: rest)) :
    RescheduleSpec ctx s p m t0 := by
  unfold RescheduleSpec
  constructor
  · intro htr
    have hmsgs := active_messages_trigger ctx.today ctx.pickSlots s.mock_calendar
      t0 rest m htr
    refine ⟨?_, ?_, ?_, ?_⟩
    · cases hcomp : ctx.complete
        (active_messages ctx.today ctx.pickSlots s.mock_calendar (t0 :: rest) m) with
      | none =>
        have hres := process_one_active_fail ctx s p m (t0 :: rest) hm hp hh hcomp
        refine ⟨active_messages ctx.today ctx.pickSlots s.mock_calendar (t0 :: rest) m,
          ?_, ?_⟩
        · simp only [processEvents, hres]
          show upd s.conversation_history p _ p = _
          simp [upd]
        · rw [hmsgs]
          rfl
      | some resp =>
        have hres := process_one_active_ok ctx s p m (t0 :: rest) resp hm hp hh hcomp
        refine ⟨active_messages ctx.today ctx.pickSlots s.mock_calendar (t0 :: rest) m
            ++ [⟨"assistant", resp.trim⟩], ?_, ?_⟩
        · simp only [processEvents, hres]
          show upd (upd s.conversation_history p _) p _ p = _
          simp [upd]
        · rw [hmsgs]
          rfl
    · rw [str_length_append]
      have := calendar_context_of_length_pos
        (collect_available_dates ctx.today ctx.pickSlots s.mock_calendar)
      omega
    · exact collectDatesAux_length ctx.pickSlots s.mock_calendar 14 (ctx.today + 1) []
        (by simp)
    · intro di hdi
      rcases collectDatesAux_mem ctx.pickSlots s.mock_calendar hv 14 (ctx.today + 1) []
        di hdi with h | h
      · exact absurd h (List.not_mem_nil di)
      · obtain ⟨h1, h2, h3, h4, h5, h6, _⟩ := h
        exact ⟨h1, by omega, h3, h4, h5, h6⟩
  · intro htr
    have hmsgs := active_messages_no_trigger ctx.today ctx.pickSlots s.mock_calendar
      (t0 :: rest) m htr
    cases hcomp : ctx.complete
        (active_messages ctx.today ctx.pickSlots s.mock_calendar (t0 :: rest) m) with
    | none =>
      have hres := process_one_active_fail ctx s p m (t0 :: rest) hm hp hh hcomp
      refine ⟨active_messages ctx.today ctx.pickSlots s.mock_calendar (t0 :: rest) m,
        ?_, ?_⟩
      · simp only [processEvents, hres]
        show upd s.conversation_history p _ p = _
        simp [upd]
      · rw [hmsgs]
        rfl
    | some resp =>
      have hres := process_one_active_ok ctx s p m (t0 :: rest) resp hm hp hh hcomp
      refine ⟨active_messages ctx.today ctx.pickSlots s.mock_calendar (t0 :: rest) m
          ++ [⟨"assistant", resp.trim⟩], ?_, ?_⟩
      · simp only [processEvents, hres]
        show upd (upd s.conversation_history p _) p _ p = _
        simp [upd]
      · rw [hmsgs]
        rfl

/-- Witness for C4: a triggering message against a generated calendar
and an active session. -/
theorem reschedule_trigger_witness :
    RescheduleSpec ctx0 state1 "+14255550100" "Please RESCHEDULE me"
      ⟨"system", "base prompt"⟩ :=
  reschedule_trigger_correct ctx0 state1 "+14255550100" "Please RESCHEDULE me"
    ⟨"system", "base prompt"⟩ [⟨"assistant", "hello"⟩]
    ctx0_validPick (by decide) (by decide) rfl

/-- C5: a batch containing a subscription-validation event with a code
answers that code and schedules no processing, so no store changes. -/
theorem validation_short_circuit_correct (ctx : Ctx) (s : AppState)
    (l : List Event) (e : Event)
    (hmem : e ∈ l) (ht : e.eventType = validationEventType)
    (hne : eventValidationCode e ≠ "") :
    ValidationShortCircuitSpec ctx s l := by
  obtain ⟨c', hf, e', he', het', hc', hcne⟩ :=
    findValidationCode_of_mem l ⟨e, hmem, ht, hne⟩
  refine ⟨c', e', he', het', hc', hcne, ?_⟩
  have hlen : l.length > 0 := by
    cases l with
    | nil => exact absurd hmem (List.not_mem_nil e)
    | cons a rest => simp
  have hrecv : receive_sms_webhook (.batch l) = (.validation c', none) := by
    show (if l.length > 0 then
        match findValidationCode l with
        | some c => (WebhookResponse.validation c, (none : Option (List Event)))
        | none =>
          (WebhookResponse.success
            ("Batch of " ++ toString l.length ++ " events received and processing"),
           some l)
      else (WebhookResponse.errorResp "list object has no attribute get", none)) = _
    rw [if_pos hlen, hf]
  unfold webhook_step
  rw [hrecv]

/-- A subscription-validation event with a code. -/
def validationEvent (c : String) : Event :=
  { eventType := validationEventType, data := some ⟨none, none, some c⟩ }

/-- Witness for C5: a batch holding an SMS event and a validation
event. -/
theorem validation_short_circuit_witness :
    ValidationShortCircuitSpec ctx0 state0
      [smsEvent "+14255550100" "hi", validationEvent "code123"] :=
  validation_short_circuit_correct ctx0 state0
    [smsEvent "+14255550100" "hi", validationEvent "code123"]
    (validationEvent "code123")
    (List.mem_cons_of_mem _ (List.mem_cons_self _ _)) rfl (by decide)

/-- C6: when the model call fails on an active-state turn, the failure
is absorbed: the user turn (and any augmentation) stays, no assistant
turn is appended, nothing is sent, and the calendar and the state of every
other sender are untouched. -/
theorem model_failure_correct (ctx : Ctx) (s : AppState) (p m : String)
    (t0 : Turn) (rest : List Turn)
    (hm : m ≠ "") (hp : p ≠ "")
    (hh : s.conversation_history p = some (t0 :: rest))
    (hcomp : ctx.complete
      (active_messages ctx.today ctx.pickSlots s.mock_calendar (t0 :: rest) m) = none) :
    ModelFailureSpec ctx s p m (t0 :: rest) := by
  have hres := process_one_active_fail ctx s p m (t0 :: rest) hm hp hh hcomp
  unfold ModelFailureSpec
  refine ⟨?_, active_messages_length ctx.today ctx.pickSlots s.mock_calendar t0 rest m,
    active_messages_getLast ctx.today ctx.pickSlots s.mock_calendar t0 rest m,
    active_messages_countP ctx.today ctx.pickSlots s.mock_calendar t0 rest m⟩
  simp only [processEvents, hres, List.nil_append]

/-- Witness for C6: a failing model against an active session. -/
theorem model_failure_witness :
    ModelFailureSpec ctx0 state1 "+14255550100" "ok"
      [⟨"system", "base prompt"⟩, ⟨"assistant", "hello"⟩] :=
  model_failure_correct ctx0 state1 "+14255550100" "ok"
    ⟨"system", "base prompt"⟩ [⟨"assistant", "hello"⟩]
    (by decide) (by decide) rfl rfl

/-- C7: across every core operation the free-slot set of each date
only shrinks: queries do not mutate, a successful booking removes
exactly the booked slot, and nothing returns a slot to availability. -/
theorem calendar_free_sets_shrink (op : CoreOp) (s : AppState) :
    CalendarShrinkSpec op s := by
  unfold CalendarShrinkSpec
  refine ⟨?_, fun pick d n => rfl, ?_⟩
  · intro d l' h
    cases op with
    | bookOp q d0 t =>
      rcases hcal : s.mock_calendar d0 with _ | mfree
      · have hb := book_appointment_none s q d0 t hcal
        have hid : applyCore (CoreOp.bookOp q d0 t) s = s := by
          show (book_appointment s q d0 t).2 = s
          rw [hb]
        rw [hid] at h
        exact ⟨l', h, fun x hx => hx⟩
      · by_cases htm : t ∈ mfree
        · have hb := book_appointment_hit s q d0 t mfree hcal htm
          have happ : applyCore (CoreOp.bookOp q d0 t) s
              = { s with
                  mock_calendar := upd s.mock_calendar d0 (mfree.erase t),
                  customer_appointments :=
                    upd s.customer_appointments q
                      { date := d0, time := t, type := "consultation",
                        status := "scheduled" } } := by
            show (book_appointment s q d0 t).2 = _
            rw [hb]
          rw [happ] at h
          by_cases hd : d = d0
          · subst hd
            have h2 : upd s.mock_calendar d (mfree.erase t) d = some l' := h
            have hupd : upd s.mock_calendar d (mfree.erase t) d
                = some (mfree.erase t) := by simp [upd]
            rw [hupd] at h2
            refine ⟨mfree, hcal, ?_⟩
            intro x hx
            rw [← Option.some.inj h2] at hx
            exact List.erase_subset _ _ hx
          · have h2 : upd s.mock_calendar d0 (mfree.erase t) d = some l' := h
            have hupd : upd s.mock_calendar d0 (mfree.erase t) d
                = s.mock_calendar d := by simp [upd, hd]
            rw [hupd] at h2
            exact ⟨l', h2, fun x hx => hx⟩
        · have hb := book_appointment_miss s q d0 t mfree hcal htm
          have hid : applyCore (CoreOp.bookOp q d0 t) s = s := by
            show (book_appointment s q d0 t).2 = s
            rw [hb]
          rw [hid] at h
          exact ⟨l', h, fun x hx => hx⟩
    | queryOp pick d0 n => exact ⟨l', h, fun x hx => hx⟩
    | apptOp today choose q => exact ⟨l', h, fun x hx => hx⟩
    | deleteOp q =>
      have hdel : (applyCore (CoreOp.deleteOp q) s).mock_calendar = s.mock_calendar := by
        show (delete_conversation s q).2.mock_calendar = s.mock_calendar
        unfold delete_conversation
        cases s.conversation_history q <;> rfl
      rw [hdel] at h
      exact ⟨l', h, fun x hx => hx⟩
    | eventsOp c evs =>
      have hev := processEvents_mock_calendar c evs s
      rw [show (applyCore (CoreOp.eventsOp c evs) s).mock_calendar = s.mock_calendar
        from hev] at h
      exact ⟨l', h, fun x hx => hx⟩
  · intro q d t l hcal htm
    have hb := book_appointment_hit s q d t l hcal htm
    constructor
    · show (book_appointment s q d t).2.mock_calendar d = some (l.erase t)
      rw [hb]
      simp [upd]
    · intro d' hd'
      show (book_appointment s q d t).2.mock_calendar d' = s.mock_calendar d'
      rw [hb]
      simp [upd, hd']

/-- Witness for C7: the shrinking property at a concrete booking. -/
theorem calendar_free_sets_shrink_witness :
    CalendarShrinkSpec (CoreOp.bookOp "+14255550100" 3 "09:00") state2 :=
  calendar_free_sets_shrink (CoreOp.bookOp "+14255550100" 3 "09:00") state2

/-- C8: once the batch loop meets an SMS event from an unseen sender,
the `return` ends the whole batch: the remaining events are never
processed, and the sends end with the reminder of that sender. -/
theorem batch_halts_on_first_contact (ctx : Ctx) (s : AppState)
    (pre post : List Event) (p m : String)
    (s1 : AppState) (out1 : List (String × String))
    (hm : m ≠ "") (hp : p ≠ "")
    (hpre : processEvents ctx s pre = .cont s1 out1)
    (hnew : s1.conversation_history p = none) :
    BatchHaltSpec ctx s pre post p m out1 := by
  have hfc := process_one_first_contact ctx s1 p m hm hp hnew
  have hone : ∀ rest : List Event,
      processEvents ctx s1 (smsEvent p m :: rest)
        = processEvents ctx s1 [smsEvent p m] := by
    intro rest
    simp only [processEvents, hfc]
  unfold BatchHaltSpec
  constructor
  · rw [processEvents_append_cont ctx pre (smsEvent p m :: post) s s1 out1 hpre,
      processEvents_append_cont ctx pre [smsEvent p m] s s1 out1 hpre,
      hone post]
  · rw [processEvents_append_cont ctx pre [smsEvent p m] s s1 out1 hpre]
    simp only [processEvents, hfc]
    exact ⟨_, _, _, rfl⟩

/-- Witness for C8: an event of an unseen sender followed by another
event. -/
theorem batch_halts_on_first_contact_witness :
    BatchHaltSpec ctx0 state0 [] [smsEvent "+14255550177" "yo"]
      "+14255550123" "hello" [] :=
  batch_halts_on_first_contact ctx0 state0 [] [smsEvent "+14255550177" "yo"]
    "+14255550123" "hello" state0 []
    (by decide) (by decide) rfl rfl

end SmsApp
